import Mathlib

/-
Verification of the EMS risk-scoring pipeline
(src/risk_score/risk_score_pipeline.py) against its specification.

The pipeline's pure helpers (preprocess_age, extract_label, safe_name,
make_unique) are embedded directly from the Python source.  Stateful /
library-backed stages (stratified split, one-hot encoding, TF-IDF widths,
the run_pipeline control flow) are embedded as explicit functions over
lists; where behaviour lives inside scikit-learn rather than in the
repository, the function models the documented semantics the source
relies on, as stated in each doc comment.

Strings are modelled as `List Char`; Python floats that the helpers
compare against integer thresholds are modelled as `ℚ`.
-/

namespace RiskScore

/-! ## String helpers: Python `k in s` and `.lower()` -/

/-- Character-wise lowercasing, modelling Python `str.lower()` on the
ASCII strings the pipeline manipulates. -/
def toLowerStr (s : List Char) : List Char := s.map Char.toLower

/-- Does `n` occur at the head of `h`?  (Helper for substring search.) -/
def matchHead : List Char → List Char → Bool
  | [], _ => true
  | _ :: _, [] => false
  | a :: as, b :: bs => a == b && matchHead as bs

/-- Python's `needle in hay` substring test: `n` occurs contiguously
somewhere in `h` (the empty needle matches everything). -/
def matchSub (n : List Char) : List Char → Bool
  | [] => n.isEmpty
  | c :: rest => matchHead n (c :: rest) || matchSub n rest

/-- Does any keyword of `kws` occur in `s`?  This is
`any(k in s for k in kws)` from `extract_label`. -/
def hasAnyKw (kws : List (List Char)) (s : List Char) : Bool :=
  kws.any (fun k => matchSub k s)

/-! ## extract_label (risk_score_pipeline.py lines 130-143) -/

/-- HIGH-risk keyword list, verbatim from line 132 of the source. -/
def high_kw : List (List Char) :=
  ["cardiac arrest", "life-threatening", "severe", "airway", "major",
   "unconscious", "seizure", "obvious death", "dead on arrival",
   "expired"].map String.data

/-- LOW-risk keyword list, verbatim from line 133 of the source. -/
def low_kw : List (List Char) :=
  ["low risk", "minor", "no injury", "epistaxis", "nosebleed",
   "public assist", "lift assist", "non traumatic", "non-traumatic",
   "no treatment"].map String.data

/-- MEDIUM-risk keyword list, verbatim from line 134 of the source. -/
def med_kw : List (List Char) :=
  ["moderate", "stable", "transport", "observation", "requires transport",
   "non life-threatening"].map String.data

/-- Embedding of `extract_label(summary)`: `s = (summary or "").lower()`
followed by the four-way priority chain HIGH, LOW, MEDIUM keyword match,
hospital/ed/transport fallback, default MEDIUM.  `none` models a Python
`None` argument. -/
def extract_label (summary : Option (List Char)) : String :=
  let s := toLowerStr (summary.getD [])
  if hasAnyKw high_kw s then "HIGH"
  else if hasAnyKw low_kw s then "LOW"
  else if hasAnyKw med_kw s then "MEDIUM"
  else if matchSub "hospital".data s || matchSub "ed".data s
          || matchSub "transport".data s then "MEDIUM"
  else "MEDIUM"

/-- Variant of `extract_label` with the hospital/ed/transport fallback
clause deleted, used to state the refinement claim that the fallback is
behaviourally unobservable. -/
def extract_label_nofallback (summary : Option (List Char)) : String :=
  let s := toLowerStr (summary.getD [])
  if hasAnyKw high_kw s then "HIGH"
  else if hasAnyKw low_kw s then "LOW"
  else if hasAnyKw med_kw s then "MEDIUM"
  else "MEDIUM"

/-! ## preprocess_age (risk_score_pipeline.py lines 55-68) -/

/-- Argument to `preprocess_age`: either a value that `float(age)`
converts successfully (modelled as a rational) or one on which `float`
raises (non-numeric strings such as "abc", or Python `None`). -/
inductive AgeInput where
  | num (a : ℚ)
  | nonNumeric
deriving DecidableEq

/-- Embedding of `preprocess_age(age)`: the `try: float(age)` guard
followed by the fixed threshold chain of the source. -/
def preprocess_age : AgeInput → String
  | .nonNumeric => "unknown"
  | .num a =>
    if a ≤ 1 then "infant"
    else if a ≤ 12 then "child"
    else if a ≤ 18 then "teen"
    else if a ≤ 65 then "adult"
    else "elderly"

/-! ## safe_name / make_unique (risk_score_pipeline.py lines 70-95) -/

/-- Characters matched by the regex class `\s` on the ASCII strings the
pipeline handles (and stripped by Python `str.strip()`). -/
def isSpaceChar (c : Char) : Bool :=
  c == ' ' || c == '\t' || c == '\n' || c == '\r' || c == '\x0b' || c == '\x0c'

/-- Python `str.strip()`: drop whitespace from both ends. -/
def stripChars (s : List Char) : List Char :=
  ((s.dropWhile isSpaceChar).reverse.dropWhile isSpaceChar).reverse

/-- Characters kept by the regex class `[0-9a-z_]` in `safe_name`. -/
def isAllowedChar (c : Char) : Bool :=
  ('0' ≤ c && c ≤ '9') || ('a' ≤ c && c ≤ 'z') || c == '_'

/-- Replaces each maximal run of characters satisfying `p` by the single
character `r`; the flag records whether the previous character was in a
run.  Models `re.sub(pattern+, r, s)` for a single-character class. -/
def replaceRunsAux (p : Char → Bool) (r : Char) : Bool → List Char → List Char
  | _, [] => []
  | inRun, c :: t =>
    if p c then
      if inRun then replaceRunsAux p r true t
      else r :: replaceRunsAux p r true t
    else c :: replaceRunsAux p r false t

/-- Entry point of `replaceRunsAux` (no run in progress). -/
def replaceRuns (p : Char → Bool) (r : Char) (s : List Char) : List Char :=
  replaceRunsAux p r false s

/-- Embedding of `safe_name(s)`: strip, lowercase, collapse whitespace
runs to `_`, map every character outside `[0-9a-z_]` to `_`, collapse
`_` runs, and fall back to "na" for the empty result. -/
def safe_name (s : List Char) : List Char :=
  let s1 := toLowerStr (stripChars s)
  let s2 := replaceRuns isSpaceChar '_' s1
  let s3 := s2.map (fun c => if isAllowedChar c then c else '_')
  let s4 := replaceRuns (fun c => c == '_') '_' s3
  if s4.isEmpty then "na".data else s4

/-- Lookup in the model of the Python `seen` dict (an association
list). -/
def lookupSeen (seen : List (List Char × Nat)) (k : List Char) : Option Nat :=
  (seen.find? (fun p => p.1 == k)).map Prod.snd

/-- Set the counter stored for key `k` in `seen` to `v`. -/
def updateSeen (seen : List (List Char × Nat)) (k : List Char) (v : Nat) :
    List (List Char × Nat) :=
  seen.map (fun p => if p.1 == k then (k, v) else p)

/-- The candidate name `f"{n}__dup{i}"` from `make_unique`. -/
def dupName (n : List Char) (i : Nat) : List Char :=
  n ++ "__dup".data ++ (toString i).data

/-- Model of the inner `while new in seen` loop of `make_unique`: the
first counter value from `i` whose dup-name is not a key of `seen`.
`fuel` bounds the search; `seen.length + 1` candidates always suffice
because `seen` has only `seen.length` keys. -/
def findFreeDup (seen : List (List Char × Nat)) (n : List Char) :
    Nat → Nat → Nat
  | i, 0 => i
  | i, fuel + 1 =>
    if (lookupSeen seen (dupName n i)).isSome then
      findFreeDup seen n (i + 1) fuel
    else i

/-- Worker for `make_unique`, threading the `seen` dict. -/
def make_unique_aux : List (List Char) → List (List Char × Nat) → List (List Char)
  | [], _ => []
  | n :: rest, seen =>
    match lookupSeen seen n with
    | none => n :: make_unique_aux rest ((n, 0) :: seen)
    | some v =>
      let i := findFreeDup seen n (v + 1) (seen.length + 1)
      let nw := dupName n i
      nw :: make_unique_aux rest ((nw, 0) :: updateSeen seen n i)

/-- Embedding of `make_unique(names)` (lines 80-95): deduplicate a name
list by appending `__dup{k}` counters. -/
def make_unique (names : List (List Char)) : List (List Char) :=
  make_unique_aux names []

/-! ## Feature-matrix column construction (run_pipeline lines 226-261
and 286-305) -/

/-- The fixed numeric feature columns of run_pipeline (line 229). -/
def numeric_cols : List (List Char) :=
  ["response_time_min", "turnout_time_min", "call_cycle_time_min",
   "on_scene_time_min"].map String.data

/-- Fitted TF-IDF state for the classifier features.  The source fits
`TfidfVectorizer(max_features=500, ...)` on Train; the only datum the
column layout depends on is the learned vocabulary size.  Per the
library contract the source relies on, `fit_transform` on Train and
`transform` on Test both emit one column per vocabulary entry. -/
structure TfidfFit where
  vocabSize : Nat
deriving DecidableEq

/-- Number of columns emitted by `fit_transform` on Train
(`X_tfidf_train.shape[1]`). -/
def tfidfFitTransformWidth (f : TfidfFit) : Nat := f.vocabSize

/-- Number of columns emitted by `transform` on Test with the same
fitted vectorizer (`X_tfidf_test.shape[1]`): the fitted vocabulary
fixes the width, independent of the transformed documents. -/
def tfidfTransformWidth (f : TfidfFit) : Nat := f.vocabSize

/-- TF-IDF column name `f"tfidf_{i}"` (lines 240 and 297). -/
def tfidfColName (i : Nat) : List Char := "tfidf_".data ++ (toString i).data

/-- Embedding of the `feature_names_cat` construction (lines 249-256):
for column index `col_idx` and each category, the name
`f"col{col_idx}__{safe_name(cat)}"`, then `make_unique`. -/
def feature_names_cat (categories : List (List (List Char))) : List (List Char) :=
  make_unique
    ((categories.enum).flatMap (fun ic =>
      ic.2.map (fun cat =>
        "col".data ++ (toString ic.1).data ++ "__".data ++ safe_name cat)))

/-- Column list of the Train feature matrix `X_train_df` after the
concatenation on line 260: numeric timing columns, `patient_age`, the
TF-IDF columns of the fitted vectorizer, then `feature_names_cat`. -/
def trainFeatureColumns (tf : TfidfFit) (categories : List (List (List Char))) :
    List (List Char) :=
  numeric_cols ++ ["patient_age".data]
    ++ (List.range (tfidfFitTransformWidth tf)).map tfidfColName
    ++ feature_names_cat categories

/-- Column list of the Test feature matrix `X_test_df` after the
concatenation on line 305: the same numeric columns, `patient_age`,
`tfidf_i` for each column of `tfidf.transform` with the fitted
vectorizer (line 297), and the `feature_names_cat` list computed on
Train and reused verbatim (line 302). -/
def testFeatureColumns (tf : TfidfFit) (fnc : List (List Char)) :
    List (List Char) :=
  numeric_cols ++ ["patient_age".data]
    ++ (List.range (tfidfTransformWidth tf)).map tfidfColName
    ++ fnc

/-! ## One-hot encoder (run_pipeline lines 243-246 and 300-302) -/

/-- Lexicographic comparison on `List Char`, used to model the sorted
category order `OneHotEncoder.fit` produces per column. -/
def lexLe : List Char → List Char → Bool
  | [], _ => true
  | _ :: _, [] => false
  | a :: as, b :: bs => a < b || (a == b && lexLe as bs)

/-- Model of `OneHotEncoder(handle_unknown="ignore").fit` on one
categorical column of Train: the sorted list of distinct observed
values (`ohe.categories_[j]`). -/
def oheFitColumn (trainCol : List (List Char)) : List (List Char) :=
  (trainCol.dedup).insertionSort (fun a b => lexLe a b = true)

/-- Model of the fitted encoder's `transform` on a single value of one
column family: one indicator per fitted category.  With
`handle_unknown="ignore"` a value outside the fitted categories simply
matches no indicator (this is the semantics the source selects on line
245). -/
def oheTransformValue (cats : List (List Char)) (v : List Char) : List Nat :=
  cats.map (fun c => if c = v then 1 else 0)

/-! ## Stratified split (run_pipeline lines 198-215)

The source delegates the split to scikit-learn's `train_test_split`
with `test_size=0.3`, a fixed seed, and `stratify=df["risk_label"]`.
That splitter is library code, not part of this repository, so it is
modelled from the spec here: a labelled row set is partitioned by
label; the test side receives `ceil(0.3 * n)` rows allocated to each
label class in proportion to the class size, each class share rounded
to the floor with the leftover rows distributed one per class; a class
with fewer members than the number of output parts (2: train and test)
is a stratification error reporting the class and its count.  The
seeded random permutation is abstracted to the given row order. -/

/-- Number of parts of the partition (train and test). -/
def nSplitParts : Nat := 2

/-- Number of held-out test rows: `ceil(0.3 * n)` as `ceil(3n/10)`. -/
def nTestRows (n : Nat) : Nat := (3 * n + 9) / 10

/-- The label classes present in a labelled row set (rows are
(identifier, label) pairs). -/
def classesOf (rows : List (Nat × String)) : List String :=
  (rows.map Prod.snd).dedup

/-- Number of rows carrying label `c`. -/
def classCount (rows : List (Nat × String)) (c : String) : Nat :=
  (rows.filter (fun r => r.2 == c)).length

/-- Pair each list element with its position, starting at `i`. -/
def withIdx (i : Nat) : List String → List (Nat × String)
  | [] => []
  | x :: t => (i, x) :: withIdx (i + 1) t

/-- Floor of class `c`'s proportional share of the test rows. -/
def floorAlloc (rows : List (Nat × String)) (c : String) : Nat :=
  nTestRows rows.length * classCount rows c / rows.length

/-- Test rows left over after every class takes its floor share. -/
def remainderAlloc (rows : List (Nat × String)) : Nat :=
  nTestRows rows.length - ((classesOf rows).map (floorAlloc rows)).sum

/-- Test-row quota of the class at position `i`: its floor share, plus
one leftover row for the first `remainderAlloc` classes. -/
def testAlloc (rows : List (Nat × String)) (i : Nat) (c : String) : Nat :=
  floorAlloc rows c + (if i < remainderAlloc rows then 1 else 0)

/-- The held-out test side: per class, the first `testAlloc` rows of
the class. -/
def testRows (rows : List (Nat × String)) : List (Nat × String) :=
  (withIdx 0 (classesOf rows)).flatMap
    (fun ic => (rows.filter (fun r => r.2 == ic.2)).take (testAlloc rows ic.1 ic.2))

/-- The train side: per class, the rows after the test quota. -/
def trainRows (rows : List (Nat × String)) : List (Nat × String) :=
  (withIdx 0 (classesOf rows)).flatMap
    (fun ic => (rows.filter (fun r => r.2 == ic.2)).drop (testAlloc rows ic.1 ic.2))

/-- First class (with its count) whose membership is too small to
stratify over `nSplitParts` parts. -/
def findSmallClass (rows : List (Nat × String)) : Option (String × Nat) :=
  ((classesOf rows).map (fun c => (c, classCount rows c))).find?
    (fun p => p.2 < nSplitParts)

/-- The stratified splitter: reports (class, count) of an
under-populated class as a fatal error, otherwise returns the
(train, test) partition.  There is no unstratified fallback path. -/
def train_test_split (rows : List (Nat × String)) :
    Except (String × Nat) (List (Nat × String) × List (Nat × String)) :=
  match findSmallClass rows with
  | some e => .error e
  | none => .ok (trainRows rows, testRows rows)

/-- The split postcondition claimed for the pipeline: train and test
jointly exhaust the rows, no row identifier is on both sides, and on
both sides every class's row count is within one row of its exact
proportional share (scaled by `n` to stay in integers). -/
def splitPost (rows tr te : List (Nat × String)) : Prop :=
  (∀ x : Nat × String, x ∈ rows ↔ (x ∈ tr ∨ x ∈ te)) ∧
  (∀ i : Nat, ¬ (i ∈ tr.map Prod.fst ∧ i ∈ te.map Prod.fst)) ∧
  (∀ c ∈ classesOf rows,
    |((te.filter (fun r => r.2 == c)).length : ℤ) * rows.length
        - (nTestRows rows.length : ℤ) * classCount rows c| ≤ rows.length ∧
    |((tr.filter (fun r => r.2 == c)).length : ℤ) * rows.length
        - ((rows.length : ℤ) - nTestRows rows.length) * classCount rows c|
      ≤ rows.length)

/-! ## Cluster summarization and pipeline control flow
(run_pipeline lines 161-220) -/

/-- Result of one call to the external summarization collaborator:
either text came back (possibly empty — Python's falsy `""`/`None`
response) or the call raised after its bounded retries. -/
inductive LLMOutcome where
  | success (text : List Char)
  | failure

/-- The try/except of lines 173-181: a raising call records the
sentinel "[ERROR]", a falsy response records "[NO LLM RESPONSE]", and
otherwise the returned text is kept. -/
def clusterSummary : LLMOutcome → List Char
  | .failure => "[ERROR]".data
  | .success s => if s.isEmpty then "[NO LLM RESPONSE]".data else s

/-- The summarization loop over all clusters: each cluster gets its own
summary from its own collaborator call outcome. -/
def summarizeAll (outcome : Nat → LLMOutcome) (clusters : List Nat) :
    List (Nat × List Char) :=
  clusters.map (fun cid => (cid, clusterSummary (outcome cid)))

/-- The label map of line 189: one label per cluster, extracted from
the cluster's summary. -/
def labelMap (summaries : List (Nat × List Char)) : List (Nat × String) :=
  summaries.map (fun p => (p.1, extract_label (some p.2)))

/-- The lookup of line 190, `df["cluster_id"].map(label_map)
.fillna("MEDIUM")`: a cluster id missing from the map defaults to
MEDIUM. -/
def lookupLabel (lm : List (Nat × String)) (cid : Nat) : String :=
  ((lm.find? (fun p => p.1 == cid)).map Prod.snd).getD "MEDIUM"

/-- Per-incident label assignment: each row (identifier, cluster id)
keeps its fields and gains the label looked up from its cluster —
never re-derived per row. -/
def assignLabels (lm : List (Nat × String)) (rows : List (Nat × Nat)) :
    List ((Nat × Nat) × String) :=
  rows.map (fun r => (r, lookupLabel lm r.2))

/-- The labelled rows handed to the stratified splitter, keyed by row
identifier. -/
def labeledRows (lm : List (Nat × String)) (rows : List (Nat × Nat)) :
    List (Nat × String) :=
  rows.map (fun r => (r.1, lookupLabel lm r.2))

/-- Artifacts `run_pipeline` produces up to and including the split,
plus the classifier stage outcome. -/
structure PipelineOutputs where
  summaries : List (Nat × List Char)
  label_map : List (Nat × String)
  labeled : List ((Nat × Nat) × String)
  trainSet : List (Nat × String)
  testSet : List (Nat × String)
  classifierTrained : Bool
  statusLog : List String

/-- The status line printed on line 219 when LightGBM is missing. -/
def skipMsg : String := "LightGBM not available; skipping classifier training."

/-- Control-flow model of `run_pipeline` from summarization onward:
summaries and labels are always produced (collaborator failures
degrade to sentinels, lines 173-181); the stratified split either
fails the run (no handler catches it) or yields the persisted
train/test sets; the classifier stage runs only when the
LightGBM module loaded (`_HAS_LGB`, lines 28-32 and 218-220), and skipping
it changes nothing produced earlier. -/
def run_pipeline (hasLgb : Bool) (outcome : Nat → LLMOutcome)
    (clusters : List Nat) (rows : List (Nat × Nat)) :
    Except (String × Nat) PipelineOutputs :=
  match train_test_split
      (labeledRows (labelMap (summarizeAll outcome clusters)) rows) with
  | .error e => .error e
  | .ok (tr, te) =>
    .ok { summaries := summarizeAll outcome clusters
          label_map := labelMap (summarizeAll outcome clusters)
          labeled := assignLabels (labelMap (summarizeAll outcome clusters)) rows
          trainSet := tr
          testSet := te
          classifierTrained := hasLgb
          statusLog := if hasLgb then [] else [skipMsg] }

/-! ## Lemmas about the split machinery -/

/-- Positions recorded by `withIdx` carry members of the list. -/
lemma mem_snd_of_mem_withIdx {j : Nat} {c : String} :
    ∀ {L : List String} {i : Nat}, (j, c) ∈ withIdx i L → c ∈ L := by
  intro L
  induction L with
  | nil => intro i h; cases h
  | cons x t ih =>
    intro i h
    rcases List.mem_cons.mp h with h | h
    · cases h
      exact List.mem_cons_self _ _
    · exact List.mem_cons_of_mem x (ih h)

/-- Every member of the list appears at some position in `withIdx`. -/
lemma exists_idx_of_mem {c : String} :
    ∀ (L : List String) (i : Nat), c ∈ L → ∃ j, (j, c) ∈ withIdx i L := by
  intro L
  induction L with
  | nil => intro i h; cases h
  | cons x t ih =>
    intro i h
    rcases List.mem_cons.mp h with h | h
    · exact ⟨i, by rw [h]; exact List.mem_cons_self _ _⟩
    · rcases ih (i + 1) h with ⟨j, hj⟩
      exact ⟨j, List.mem_cons_of_mem _ hj⟩

/-- On a duplicate-free list, an element determines its `withIdx`
position. -/
lemma withIdx_idx_unique :
    ∀ (L : List String) (i : Nat), L.Nodup → ∀ {j j' : Nat} {c : String},
      (j, c) ∈ withIdx i L → (j', c) ∈ withIdx i L → j = j' := by
  intro L
  induction L with
  | nil => intro i _ j j' c h; cases h
  | cons x t ih =>
    intro i hnd j j' c h h'
    have hx : x ∉ t := (List.nodup_cons.mp hnd).1
    have ht : t.Nodup := (List.nodup_cons.mp hnd).2
    rcases List.mem_cons.mp h with h1 | h1 <;> rcases List.mem_cons.mp h' with h2 | h2
    · cases h1; cases h2; rfl
    · cases h1
      exact absurd (mem_snd_of_mem_withIdx h2) hx
    · cases h2
      exact absurd (mem_snd_of_mem_withIdx h1) hx
    · exact ih (i + 1) ht h1 h2

/-- `filter` distributes over `flatMap`. -/
lemma filter_flatMap_comm {α β : Type} (l : List α) (f : α → List β) (p : β → Bool) :
    (l.flatMap f).filter p = l.flatMap fun a => (f a).filter p := by
  induction l with
  | nil => rfl
  | cons a t ih => simp [List.flatMap_cons, List.filter_append, ih]

/-- Filtering a per-class `flatMap` by one class keeps exactly that
class's segment: when every element of `part j c'` has label `c'` and
the class list is duplicate-free, the filter by `c` returns `part j c`
for the unique position `j` of `c`. -/
lemma flatMap_filter_single
    (part : Nat → String → List (Nat × String))
    (hpart : ∀ j c' x, x ∈ part j c' → x.2 = c') :
    ∀ (L : List String) (i : Nat), L.Nodup → ∀ c ∈ L,
      ∃ j, (j, c) ∈ withIdx i L ∧
        ((withIdx i L).flatMap (fun ic => part ic.1 ic.2)).filter
            (fun r => r.2 == c) = part j c := by
  intro L
  induction L with
  | nil => intro i _ c hc; cases hc
  | cons c0 t ih =>
    intro i hnd c hc
    have hc0 : c0 ∉ t := (List.nodup_cons.mp hnd).1
    have ht : t.Nodup := (List.nodup_cons.mp hnd).2
    rw [withIdx, List.flatMap_cons, List.filter_append]
    by_cases hcc : c = c0
    · subst hcc
      refine ⟨i, List.mem_cons_self _ _, ?_⟩
      have h1 : (part i c).filter (fun r => r.2 == c) = part i c :=
        List.filter_eq_self.mpr fun x hx => by
          simp [hpart i c x hx]
      have h2 : ((withIdx (i + 1) t).flatMap
          (fun ic => part ic.1 ic.2)).filter (fun r => r.2 == c) = [] := by
        rw [List.filter_eq_nil_iff]
        intro x hx
        rcases List.mem_flatMap.mp hx with ⟨ic, hic, hxic⟩
        have : x.2 = ic.2 := hpart ic.1 ic.2 x (by simpa using hxic)
        have hmem : ic.2 ∈ t := by
          rcases ic with ⟨j, c'⟩
          exact mem_snd_of_mem_withIdx hic
        simp only [beq_iff_eq, this]
        intro hcon
        exact hc0 (hcon ▸ hmem)
      rw [h1, h2, List.append_nil]
    · have hct : c ∈ t := by
        rcases List.mem_cons.mp hc with h | h
        · exact absurd h hcc
        · exact h
      rcases ih (i + 1) ht c hct with ⟨j, hj, hfil⟩
      refine ⟨j, List.mem_cons_of_mem _ hj, ?_⟩
      have h1 : (part i c0).filter (fun r => r.2 == c) = [] := by
        rw [List.filter_eq_nil_iff]
        intro x hx
        have : x.2 = c0 := hpart i c0 x hx
        simp only [beq_iff_eq, this]
        intro hcon
        exact hcc hcon.symm
      rw [h1, hfil, List.nil_append]

/-- No class can outnumber the whole row set. -/
lemma classCount_le_length (rows : List (Nat × String)) (c : String) :
    classCount rows c ≤ rows.length :=
  List.length_filter_le _ _

/-- With at least two rows, the `ceil(0.3 n)` test size is below `n`. -/
lemma nTestRows_lt (n : Nat) (hn : 2 ≤ n) : nTestRows n < n := by
  unfold nTestRows
  rw [Nat.div_lt_iff_lt_mul (by norm_num)]
  omega

/-- With at least two rows and a nonempty class, the floor share of a
class is strictly below the class size. -/
lemma floorAlloc_lt (rows : List (Nat × String)) (c : String)
    (hn : 2 ≤ rows.length) (hc : 1 ≤ classCount rows c) :
    floorAlloc rows c < classCount rows c := by
  unfold floorAlloc
  rw [Nat.div_lt_iff_lt_mul (by omega)]
  calc nTestRows rows.length * classCount rows c
      < rows.length * classCount rows c :=
        (Nat.mul_lt_mul_right hc).mpr (nTestRows_lt _ hn)
    _ = classCount rows c * rows.length := Nat.mul_comm _ _

/-- The test quota of a class never exceeds the class size. -/
lemma testAlloc_le (rows : List (Nat × String)) (j : Nat) (c : String)
    (hn : 2 ≤ rows.length) (hc : 1 ≤ classCount rows c) :
    testAlloc rows j c ≤ classCount rows c := by
  have := floorAlloc_lt rows c hn hc
  unfold testAlloc
  split_ifs <;> omega

/-- The test quota is within one row (scaled by `n`) of the exact
proportional share of the class. -/
lemma testAlloc_bound (rows : List (Nat × String)) (j : Nat) (c : String)
    (hn : 2 ≤ rows.length) :
    |(testAlloc rows j c : ℤ) * rows.length
        - (nTestRows rows.length : ℤ) * classCount rows c| ≤ rows.length := by
  have hn0 : 0 < rows.length := by omega
  have hmod := Nat.div_add_mod (nTestRows rows.length * classCount rows c) rows.length
  have hlt : nTestRows rows.length * classCount rows c % rows.length < rows.length :=
    Nat.mod_lt _ hn0
  have h1 : ((rows.length : ℤ))
        * ((nTestRows rows.length * classCount rows c / rows.length : ℕ) : ℤ)
      + ((nTestRows rows.length * classCount rows c % rows.length : ℕ) : ℤ)
      = (nTestRows rows.length : ℤ) * classCount rows c := by
    exact_mod_cast hmod
  have h2 : ((nTestRows rows.length * classCount rows c % rows.length : ℕ) : ℤ)
      < (rows.length : ℤ) := by exact_mod_cast hlt
  have h3 : (0 : ℤ)
      ≤ ((nTestRows rows.length * classCount rows c % rows.length : ℕ) : ℤ) :=
    Int.natCast_nonneg _
  unfold testAlloc floorAlloc
  rw [abs_le]
  constructor <;> split_ifs <;>
    simp only [Nat.add_zero, Nat.cast_add, Nat.cast_one] <;>
    linarith [h1, h2, h3]

/-- A successful `findSmallClass` scan means every present class has at
least `nSplitParts` members. -/
lemma small_class_none (rows : List (Nat × String))
    (h : findSmallClass rows = none) :
    ∀ c ∈ classesOf rows, nSplitParts ≤ classCount rows c := by
  intro c hc
  have := List.find?_eq_none.mp h (c, classCount rows c)
    (List.mem_map_of_mem _ hc)
  simpa using this

/-- The row set is at least as large as any present class, hence at
least 2 under the stratification precondition. -/
lemma length_ge_two_of_class (rows : List (Nat × String)) (c : String)
    (h2 : 2 ≤ classCount rows c) : 2 ≤ rows.length :=
  le_trans h2 (classCount_le_length rows c)

/-- Rows carry labels that are present classes. -/
lemma mem_classesOf {rows : List (Nat × String)} {x : Nat × String}
    (hx : x ∈ rows) : x.2 ∈ classesOf rows :=
  List.mem_dedup.mpr (List.mem_map_of_mem _ hx)

/-- Train and test sides jointly exhaust the rows (no hypothesis
needed: each row belongs to exactly the segment of its own class). -/
lemma split_union (rows : List (Nat × String)) :
    ∀ x : Nat × String, x ∈ rows ↔ (x ∈ trainRows rows ∨ x ∈ testRows rows) := by
  intro x
  constructor
  · intro hx
    have hc : x.2 ∈ classesOf rows := mem_classesOf hx
    rcases exists_idx_of_mem (classesOf rows) 0 hc with ⟨j, hj⟩
    have hxf : x ∈ rows.filter (fun r => r.2 == x.2) :=
      List.mem_filter.mpr ⟨hx, by simp⟩
    rw [← List.take_append_drop (testAlloc rows j x.2)
      (rows.filter (fun r => r.2 == x.2))] at hxf
    rcases List.mem_append.mp hxf with h | h
    · exact Or.inr (List.mem_flatMap.mpr ⟨(j, x.2), hj, h⟩)
    · exact Or.inl (List.mem_flatMap.mpr ⟨(j, x.2), hj, h⟩)
  · intro hx
    rcases hx with h | h
    · rcases List.mem_flatMap.mp h with ⟨ic, _, hxic⟩
      exact List.mem_of_mem_filter (List.mem_of_mem_drop hxic)
    · rcases List.mem_flatMap.mp h with ⟨ic, _, hxic⟩
      exact List.mem_of_mem_filter (List.mem_of_mem_take hxic)

/-- With duplicate-free row identifiers, no identifier appears on both
sides of the split. -/
lemma split_disjoint (rows : List (Nat × String))
    (hnd : (rows.map Prod.fst).Nodup) :
    ∀ i : Nat, ¬ (i ∈ (trainRows rows).map Prod.fst ∧
                  i ∈ (testRows rows).map Prod.fst) := by
  rintro i ⟨hitr, hite⟩
  rcases List.mem_map.mp hitr with ⟨x, hx, hxi⟩
  rcases List.mem_map.mp hite with ⟨y, hy, hyi⟩
  rcases List.mem_flatMap.mp hx with ⟨⟨j, c⟩, hic, hxseg⟩
  rcases List.mem_flatMap.mp hy with ⟨⟨j', c'⟩, hic', hyseg⟩
  have hxf : x ∈ rows.filter (fun r => r.2 == c) := List.mem_of_mem_drop hxseg
  have hyf : y ∈ rows.filter (fun r => r.2 == c') := List.mem_of_mem_take hyseg
  have hxrows : x ∈ rows := List.mem_of_mem_filter hxf
  have hyrows : y ∈ rows := List.mem_of_mem_filter hyf
  have hx2 : x.2 = c := by simpa using (List.mem_filter.mp hxf).2
  have hy2 : y.2 = c' := by simpa using (List.mem_filter.mp hyf).2
  have hxy : x = y :=
    List.inj_on_of_nodup_map hnd hxrows hyrows (by rw [hxi, hyi])
  have hcc : c = c' := by rw [← hx2, hxy, hy2]
  subst hcc
  have hjj : j = j' :=
    withIdx_idx_unique (classesOf rows) 0 (List.nodup_dedup _) hic hic'
  subst hjj
  have hsubnd : (rows.filter (fun r => r.2 == c)).Nodup :=
    (List.Nodup.of_map Prod.fst hnd).filter _
  exact List.disjoint_take_drop hsubnd (le_refl _) (hxy ▸ hyseg) hxseg

/-- On both sides of a successful split, each class's row count is
within one row (scaled by `n`) of its exact proportional share. -/
lemma split_counts (rows : List (Nat × String))
    (hok : findSmallClass rows = none) :
    ∀ c ∈ classesOf rows,
      |(((testRows rows).filter (fun r => r.2 == c)).length : ℤ) * rows.length
          - (nTestRows rows.length : ℤ) * classCount rows c| ≤ rows.length ∧
      |(((trainRows rows).filter (fun r => r.2 == c)).length : ℤ) * rows.length
          - ((rows.length : ℤ) - nTestRows rows.length) * classCount rows c|
        ≤ rows.length := by
  intro c hc
  have hsc : 2 ≤ classCount rows c := by
    have := small_class_none rows hok c hc
    simpa [nSplitParts] using this
  have hn : 2 ≤ rows.length := length_ge_two_of_class rows c hsc
  have hnodup : (classesOf rows).Nodup := List.nodup_dedup _
  -- the test side's class-c rows are exactly the class's take-segment
  obtain ⟨j, hj, hfe⟩ :=
    flatMap_filter_single
      (fun j c' => (rows.filter (fun r => r.2 == c')).take (testAlloc rows j c'))
      (fun j c' x hx => by
        simpa using (List.mem_filter.mp (List.mem_of_mem_take hx)).2)
      (classesOf rows) 0 hnodup c hc
  -- the train side's class-c rows are exactly the class's drop-segment
  obtain ⟨j', hj', hfr⟩ :=
    flatMap_filter_single
      (fun j c' => (rows.filter (fun r => r.2 == c')).drop (testAlloc rows j c'))
      (fun j c' x hx => by
        simpa using (List.mem_filter.mp (List.mem_of_mem_drop hx)).2)
      (classesOf rows) 0 hnodup c hc
  have hjj : j' = j := withIdx_idx_unique (classesOf rows) 0 hnodup hj' hj
  rw [hjj] at hfr
  have hta : testAlloc rows j c ≤ classCount rows c :=
    testAlloc_le rows j c hn (by omega)
  have hlen_te : ((testRows rows).filter (fun r => r.2 == c)).length
      = testAlloc rows j c := by
    rw [show (testRows rows).filter (fun r => r.2 == c)
        = (rows.filter (fun r => r.2 == c)).take (testAlloc rows j c) from hfe,
      List.length_take]
    exact Nat.min_eq_left hta
  have hlen_tr : ((trainRows rows).filter (fun r => r.2 == c)).length
      = classCount rows c - testAlloc rows j c := by
    rw [show (trainRows rows).filter (fun r => r.2 == c)
        = (rows.filter (fun r => r.2 == c)).drop (testAlloc rows j c) from hfr,
      List.length_drop]
    rfl
  constructor
  · rw [hlen_te]
    exact testAlloc_bound rows j c hn
  · rw [hlen_tr]
    have hcast : ((classCount rows c - testAlloc rows j c : ℕ) : ℤ)
        = (classCount rows c : ℤ) - testAlloc rows j c := by
      push_cast [hta]
      ring
    rw [hcast]
    have heq : ((classCount rows c : ℤ) - testAlloc rows j c) * rows.length
          - ((rows.length : ℤ) - nTestRows rows.length) * classCount rows c
        = -((testAlloc rows j c : ℤ) * rows.length
            - (nTestRows rows.length : ℤ) * classCount rows c) := by ring
    rw [heq, abs_neg]
    exact testAlloc_bound rows j c hn

/-- C4: on every labelled row set with duplicate-free identifiers on
which the stratified split succeeds, Train and Test are disjoint, their
union is the full set, and each label's row count on both sides is
within one row of its exact proportional share (tolerance `±1` row,
stated scaled by `n`). -/
theorem train_test_split_stratified :
    ∀ (rows tr te : List (Nat × String)),
      (rows.map Prod.fst).Nodup →
      train_test_split rows = .ok (tr, te) →
      splitPost rows tr te := by
  intro rows tr te hnd hok
  unfold train_test_split at hok
  cases hfind : findSmallClass rows with
  | some e => rw [hfind] at hok; cases hok
  | none =>
    rw [hfind] at hok
    have hpair : (trainRows rows, testRows rows) = (tr, te) := by
      cases hok; rfl
    have htr : trainRows rows = tr := congrArg Prod.fst hpair
    have hte : testRows rows = te := congrArg Prod.snd hpair
    subst htr
    subst hte
    exact ⟨split_union rows, split_disjoint rows hnd, split_counts rows hfind⟩

/-- Witness for C4: a seven-row set with classes LOW (2 rows),
HIGH (2 rows), MEDIUM (3 rows); the model split holds out one row of
each class and keeps the rest. -/
theorem train_test_split_stratified_witness :
    splitPost
      [(0, "LOW"), (1, "LOW"), (2, "HIGH"), (3, "HIGH"),
       (4, "MEDIUM"), (5, "MEDIUM"), (6, "MEDIUM")]
      [(1, "LOW"), (3, "HIGH"), (5, "MEDIUM"), (6, "MEDIUM")]
      [(0, "LOW"), (2, "HIGH"), (4, "MEDIUM")] :=
  train_test_split_stratified _ _ _ (by decide) (by rfl)

/-- Unfolded form of `extract_label`, for rewriting. -/
lemma extract_label_eq (s : Option (List Char)) :
    extract_label s =
      (if hasAnyKw high_kw (toLowerStr (s.getD [])) then "HIGH"
       else if hasAnyKw low_kw (toLowerStr (s.getD [])) then "LOW"
       else if hasAnyKw med_kw (toLowerStr (s.getD [])) then "MEDIUM"
       else if matchSub "hospital".data (toLowerStr (s.getD []))
               || matchSub "ed".data (toLowerStr (s.getD []))
               || matchSub "transport".data (toLowerStr (s.getD [])) then "MEDIUM"
       else "MEDIUM") := rfl

/-- Whatever branch fires, `extract_label` lands in the three-label set. -/
lemma extract_label_mem (s : Option (List Char)) :
    extract_label s ∈ (["LOW", "MEDIUM", "HIGH"] : List String) := by
  rw [extract_label_eq]
  split_ifs <;> simp

/-! ## Theorems for the label-extraction claims -/

/-- C2: `extract_label` is a deterministic, case-insensitive keyword
match with fixed priority HIGH > LOW > MEDIUM > default-MEDIUM: it
depends only on the lowercased text; a HIGH keyword forces HIGH; absent
HIGH keywords, a LOW keyword forces LOW; absent both, the result is
MEDIUM (whether by MEDIUM keyword, hospital/ed/transport fallback, or
default); any text containing "cardiac arrest" yields HIGH; and two runs
on the same text agree. -/
theorem extract_label_priority_spec :
    (∀ s t : Option (List Char),
        toLowerStr (s.getD []) = toLowerStr (t.getD []) →
        extract_label s = extract_label t) ∧
    (∀ s : Option (List Char),
        hasAnyKw high_kw (toLowerStr (s.getD [])) = true →
        extract_label s = "HIGH") ∧
    (∀ s : Option (List Char),
        hasAnyKw high_kw (toLowerStr (s.getD [])) = false →
        hasAnyKw low_kw (toLowerStr (s.getD [])) = true →
        extract_label s = "LOW") ∧
    (∀ s : Option (List Char),
        hasAnyKw high_kw (toLowerStr (s.getD [])) = false →
        hasAnyKw low_kw (toLowerStr (s.getD [])) = false →
        extract_label s = "MEDIUM") ∧
    (∀ s : Option (List Char),
        matchSub "cardiac arrest".data (toLowerStr (s.getD [])) = true →
        extract_label s = "HIGH") ∧
    (∀ s : Option (List Char), extract_label s = extract_label s) := by
  have hca : ∀ s : Option (List Char),
      matchSub "cardiac arrest".data (toLowerStr (s.getD [])) = true →
      hasAnyKw high_kw (toLowerStr (s.getD [])) = true := by
    intro s h
    unfold hasAnyKw
    rw [List.any_eq_true]
    exact ⟨"cardiac arrest".data, by decide, h⟩
  refine ⟨?_, ?_, ?_, ?_, ?_, fun _ => rfl⟩
  · intro s t h
    rw [extract_label_eq, extract_label_eq, h]
  · intro s h
    rw [extract_label_eq, if_pos h]
  · intro s h1 h2
    rw [extract_label_eq, h1, h2]
    simp
  · intro s h1 h2
    rw [extract_label_eq, h1, h2]
    simp
  · intro s h
    rw [extract_label_eq, if_pos (hca s h)]

/-- Witness for C2 at concrete summaries: a cardiac-arrest mention wins
over the LOW keyword "minor"; a LOW keyword with no HIGH keyword gives
LOW; text with no HIGH or LOW keyword gives MEDIUM; matching is
case-insensitive. -/
theorem extract_label_priority_spec_witness :
    extract_label (some "Patient in CARDIAC ARREST, minor bleed".data) = "HIGH" ∧
    extract_label (some "lift assist only, no injury".data) = "LOW" ∧
    extract_label (some "routine checkup notes".data) = "MEDIUM" ∧
    extract_label (some "STABLE".data) = extract_label (some "stable".data) := by
  refine ⟨?_, ?_, ?_, ?_⟩
  · exact extract_label_priority_spec.2.2.2.2.1 _ (by decide)
  · exact extract_label_priority_spec.2.2.1 _ (by decide) (by decide)
  · exact extract_label_priority_spec.2.2.2.1 _ (by decide) (by decide)
  · exact extract_label_priority_spec.1 _ _ (by decide)

/-- C10: deleting the hospital/ed/transport fallback clause from
`extract_label` does not change its value on any input (including `none`
and the empty string), since both the fallback clause and the final
default return MEDIUM. -/
theorem extract_label_eq_nofallback :
    ∀ s : Option (List Char), extract_label s = extract_label_nofallback s := by
  have hnf : ∀ s : Option (List Char),
      extract_label_nofallback s =
        (if hasAnyKw high_kw (toLowerStr (s.getD [])) then "HIGH"
         else if hasAnyKw low_kw (toLowerStr (s.getD [])) then "LOW"
         else if hasAnyKw med_kw (toLowerStr (s.getD [])) then "MEDIUM"
         else "MEDIUM") := fun _ => rfl
  intro s
  rw [extract_label_eq, hnf]
  split_ifs <;> rfl

/-- C3 counterexample: the claim says age 200 yields "unknown", but the
source's threshold chain sends every numeric age above 65 — 200
included — to "elderly". -/
theorem preprocess_age_age200_counterexample :
    preprocess_age (.num 200) = "elderly" ∧
    preprocess_age (.num 200) ≠ "unknown" := by
  have h : preprocess_age (.num 200) = "elderly" := by norm_num [preprocess_age]
  exact ⟨h, by rw [h]; decide⟩

/-- C3 amended: `preprocess_age` deterministically returns exactly one
of {infant, child, teen, adult, elderly, unknown} by fixed thresholds
(≤1 infant, ≤12 child, ≤18 teen, ≤65 adult, else elderly), and
non-numeric input gives "unknown"; in particular age 1 gives "infant",
age 1.01 gives "child", "abc" gives "unknown", and age 200 gives
"elderly" (not "unknown" as originally claimed). -/
theorem preprocess_age_buckets :
    (∀ x : AgeInput, preprocess_age x ∈
        (["infant", "child", "teen", "adult", "elderly", "unknown"] : List String)) ∧
    (∀ a : ℚ, a ≤ 1 → preprocess_age (.num a) = "infant") ∧
    (∀ a : ℚ, 1 < a → a ≤ 12 → preprocess_age (.num a) = "child") ∧
    (∀ a : ℚ, 12 < a → a ≤ 18 → preprocess_age (.num a) = "teen") ∧
    (∀ a : ℚ, 18 < a → a ≤ 65 → preprocess_age (.num a) = "adult") ∧
    (∀ a : ℚ, 65 < a → preprocess_age (.num a) = "elderly") ∧
    preprocess_age .nonNumeric = "unknown" ∧
    preprocess_age (.num 1) = "infant" ∧
    preprocess_age (.num (101/100)) = "child" ∧
    preprocess_age (.num 200) = "elderly" := by
  refine ⟨?_, ?_, ?_, ?_, ?_, ?_, rfl, ?_, ?_, ?_⟩
  · intro x
    cases x with
    | nonNumeric => simp [preprocess_age]
    | num a =>
      simp only [preprocess_age]
      split_ifs <;> simp
  · intro a h
    simp [preprocess_age, h]
  · intro a h1 h2
    simp [preprocess_age, h2, not_le.mpr h1]
  · intro a h1 h2
    simp [preprocess_age, h2, not_le.mpr h1,
      not_le.mpr (lt_trans (by norm_num : (1 : ℚ) < 12) h1)]
  · intro a h1 h2
    have h12 : ¬ a ≤ 12 := not_le.mpr (lt_trans (by norm_num) h1)
    have h1' : ¬ a ≤ 1 := not_le.mpr (lt_trans (by norm_num) h1)
    simp [preprocess_age, h2, not_le.mpr h1, h12, h1']
  · intro a h
    have h65 : ¬ a ≤ 65 := not_le.mpr h
    have h18 : ¬ a ≤ 18 := not_le.mpr (lt_trans (by norm_num) h)
    have h12 : ¬ a ≤ 12 := not_le.mpr (lt_trans (by norm_num) h)
    have h1' : ¬ a ≤ 1 := not_le.mpr (lt_trans (by norm_num) h)
    simp [preprocess_age, h65, h18, h12, h1']
  · norm_num [preprocess_age]
  · norm_num [preprocess_age]
  · norm_num [preprocess_age]

/-- Indicator map over a category list not containing `v` is the
all-zero vector. -/
lemma map_indicator_eq_replicate (cats : List (List Char)) (v : List Char)
    (h : v ∉ cats) :
    cats.map (fun c => if c = v then 1 else 0) = List.replicate cats.length 0 := by
  induction cats with
  | nil => rfl
  | cons c t ih =>
    have hc : ¬ c = v := fun hc => h (hc ▸ List.mem_cons_self c t)
    have ht : v ∉ t := fun hm => h (List.mem_cons_of_mem c hm)
    simp [List.replicate_succ, hc, ih ht]

/-- C1: for every fitted TF-IDF state and every per-column category
lists learned on Train, the Test feature matrix has exactly the same
columns, in the same count and order, as the Train feature matrix:
the four timing columns then patient_age, then the tfidf_i columns of
the one fitted vectorizer, then the feature_names_cat list computed on
Train and reused on Test. -/
theorem train_test_feature_columns_eq :
    ∀ (tf : TfidfFit) (categories : List (List (List Char))),
      testFeatureColumns tf (feature_names_cat categories) =
        trainFeatureColumns tf categories ∧
      (testFeatureColumns tf (feature_names_cat categories)).length =
        (trainFeatureColumns tf categories).length :=
  fun _ _ => ⟨rfl, rfl⟩

/-- C8: transforming a categorical value that was not observed in Train
during the encoder's fit produces the all-zero indicator vector for
that column family (rather than an error — the transform is total). -/
theorem ohe_unknown_value_all_zero :
    ∀ (trainCol : List (List Char)) (v : List Char),
      v ∉ trainCol →
      oheTransformValue (oheFitColumn trainCol) v =
        List.replicate (oheFitColumn trainCol).length 0 := by
  intro trainCol v hv
  have hmem : v ∉ oheFitColumn trainCol := by
    intro h
    exact hv (List.mem_dedup.mp
      ((List.perm_insertionSort (fun a b => lexLe a b = true) trainCol.dedup).mem_iff.mp h))
  exact map_indicator_eq_replicate _ _ hmem

/-- Witness for C8: the value "other" was never seen in the Train
gender column, so its one-hot row is all-zero. -/
theorem ohe_unknown_value_all_zero_witness :
    oheTransformValue
        (oheFitColumn (["female", "male", "female"].map String.data))
        "other".data
      = List.replicate
          (oheFitColumn (["female", "male", "female"].map String.data)).length 0 :=
  ohe_unknown_value_all_zero _ _ (by decide)

/-- Cluster labels looked up through the label map always land in the
three-label set (extracted labels by `extract_label_mem`, the missing
key default by definition). -/
lemma lookupLabel_mem (summaries : List (Nat × List Char)) (cid : Nat) :
    lookupLabel (labelMap summaries) cid ∈ (["LOW", "MEDIUM", "HIGH"] : List String) := by
  unfold lookupLabel
  cases hf : (labelMap summaries).find? (fun p => p.1 == cid) with
  | none => simp
  | some p =>
    have hp : p ∈ labelMap summaries := List.mem_of_find?_eq_some hf
    rcases List.mem_map.mp hp with ⟨q, _, rfl⟩
    simpa using extract_label_mem (some q.2)

/-- C5: when some label class has fewer members than the number of
split parts, the stratified splitter reports that class and its count
as an error — it never returns a fallback split — and `run_pipeline`
propagates the error unhandled, halting the run. -/
theorem split_small_class_halts :
    (∀ rows : List (Nat × String),
      (∃ c ∈ classesOf rows, classCount rows c < nSplitParts) →
      ∃ c k, findSmallClass rows = some (c, k) ∧ k < nSplitParts ∧
        classCount rows c = k ∧
        train_test_split rows = .error (c, k)) ∧
    (∀ (hasLgb : Bool) (outcome : Nat → LLMOutcome) (clusters : List Nat)
        (rows : List (Nat × Nat)) (e : String × Nat),
      train_test_split
          (labeledRows (labelMap (summarizeAll outcome clusters)) rows)
        = .error e →
      run_pipeline hasLgb outcome clusters rows = .error e) := by
  constructor
  · rintro rows ⟨c, hc, hlt⟩
    have hsome : (((classesOf rows).map (fun c => (c, classCount rows c))).find?
        (fun p => p.2 < nSplitParts)).isSome := by
      rw [List.find?_isSome]
      exact ⟨(c, classCount rows c), List.mem_map_of_mem _ hc, by simpa using hlt⟩
    rcases Option.isSome_iff_exists.mp hsome with ⟨y, hy⟩
    have hymem := List.mem_of_find?_eq_some hy
    have hyp := List.find?_some hy
    rcases List.mem_map.mp hymem with ⟨c', hc', hceq⟩
    have hf : findSmallClass rows = some (c', classCount rows c') := by
      unfold findSmallClass
      rw [hy, ← hceq]
    refine ⟨c', classCount rows c', hf, ?_, rfl, ?_⟩
    · rw [← hceq] at hyp
      simpa using hyp
    · unfold train_test_split
      rw [hf]
  · intro hasLgb outcome clusters rows e hsp
    unfold run_pipeline
    rw [hsp]

/-- Witness for C5: a three-row set where HIGH has a single member; the
splitter and the pipeline both fail with ("HIGH", 1). -/
theorem split_small_class_halts_witness :
    (∃ c k,
      findSmallClass [(0, "HIGH"), (1, "LOW"), (2, "LOW")] = some (c, k) ∧
      k < nSplitParts ∧
      classCount [(0, "HIGH"), (1, "LOW"), (2, "LOW")] c = k ∧
      train_test_split [(0, "HIGH"), (1, "LOW"), (2, "LOW")] = .error (c, k)) ∧
    run_pipeline true
        (fun c => if c == 0 then .failure else .success "minor fall, no injury".data)
        [0, 1] [(0, 0), (1, 1), (2, 1)]
      = .error ("MEDIUM", 1) :=
  ⟨split_small_class_halts.1 _ ⟨"HIGH", by decide, by decide⟩,
   split_small_class_halts.2 true _ [0, 1] [(0, 0), (1, 1), (2, 1)] _ (by rfl)⟩

/-- C6: a failed summarization call is recorded as the sentinel
"[ERROR]" and an empty response as "[NO LLM RESPONSE]"; both sentinels
label as MEDIUM; changing one cluster's call outcome leaves every other
cluster's summary unchanged; and whenever the split of the induced
labelled rows succeeds, the run completes with those train/test sets
(summarization failures never abort the run). -/
theorem summarization_failure_degrades :
    clusterSummary .failure = "[ERROR]".data ∧
    (∀ s : List Char, s.isEmpty = true →
      clusterSummary (.success s) = "[NO LLM RESPONSE]".data) ∧
    extract_label (some "[ERROR]".data) = "MEDIUM" ∧
    extract_label (some "[NO LLM RESPONSE]".data) = "MEDIUM" ∧
    (∀ (outcome outcome' : Nat → LLMOutcome) (clusters : List Nat) (cid : Nat),
      (∀ c, c ≠ cid → outcome c = outcome' c) →
      (summarizeAll outcome clusters).filter (fun p => p.1 != cid)
        = (summarizeAll outcome' clusters).filter (fun p => p.1 != cid)) ∧
    (∀ (hasLgb : Bool) (outcome : Nat → LLMOutcome) (clusters : List Nat)
        (rows : List (Nat × Nat)) (tr te : List (Nat × String)),
      train_test_split
          (labeledRows (labelMap (summarizeAll outcome clusters)) rows)
        = .ok (tr, te) →
      ∃ out, run_pipeline hasLgb outcome clusters rows = .ok out ∧
        out.trainSet = tr ∧ out.testSet = te) := by
  refine ⟨rfl, ?_, by decide, by decide, ?_, ?_⟩
  · intro s hs
    simp [clusterSummary, hs]
  · intro o o' clusters cid h
    induction clusters with
    | nil => rfl
    | cons c t ih =>
      simp only [summarizeAll, List.map_cons, List.filter_cons] at ih ⊢
      by_cases hc : c = cid
      · subst hc
        simpa using ih
      · have hb : (c != cid) = true := by simpa using hc
        rw [hb, h c hc]
        simp only [if_true]
        exact congrArg _ ih
  · intro hasLgb o clusters rows tr te hsp
    have hres : run_pipeline hasLgb o clusters rows
        = .ok { summaries := summarizeAll o clusters
                label_map := labelMap (summarizeAll o clusters)
                labeled := assignLabels (labelMap (summarizeAll o clusters)) rows
                trainSet := tr
                testSet := te
                classifierTrained := hasLgb
                statusLog := if hasLgb then [] else [skipMsg] } := by
      unfold run_pipeline
      rw [hsp]
    exact ⟨_, hres, rfl, rfl⟩

/-- Witness for C6: cluster 0's call fails while cluster 1 answers
"stable"; cluster 1's summary is unchanged by the failure, and the run
completes with the expected train/test sets, both clusters labelled
MEDIUM. -/
theorem summarization_failure_degrades_witness :
    clusterSummary (.success []) = "[NO LLM RESPONSE]".data ∧
    ((summarizeAll
        (fun c => if c == 0 then .failure else .success "stable".data)
        [0, 1]).filter (fun p => p.1 != 0)
      = (summarizeAll (fun _ => LLMOutcome.success "stable".data)
          [0, 1]).filter (fun p => p.1 != 0)) ∧
    (∃ out, run_pipeline true
        (fun c => if c == 0 then .failure else .success "stable".data)
        [0, 1] [(0, 0), (1, 0), (2, 1), (3, 1)] = .ok out ∧
      out.trainSet = [(2, "MEDIUM"), (3, "MEDIUM")] ∧
      out.testSet = [(0, "MEDIUM"), (1, "MEDIUM")]) :=
  ⟨summarization_failure_degrades.2.1 [] rfl,
   summarization_failure_degrades.2.2.2.2.1 _ _ [0, 1] 0
     (fun c hc => by simp [hc]),
   summarization_failure_degrades.2.2.2.2.2 true _ [0, 1]
     [(0, 0), (1, 0), (2, 1), (3, 1)]
     [(2, "MEDIUM"), (3, "MEDIUM")] [(0, "MEDIUM"), (1, "MEDIUM")] (by rfl)⟩

/-- C7: all incidents of one cluster carry the identical label: each
row's label is the single cluster-level lookup, never re-derived per
row; every assigned label is one of LOW/MEDIUM/HIGH; and a cluster id
missing from the label map defaults to MEDIUM. -/
theorem cluster_label_inherited :
    ∀ (summaries : List (Nat × List Char)) (rows : List (Nat × Nat)),
      (∀ x ∈ assignLabels (labelMap summaries) rows,
       ∀ y ∈ assignLabels (labelMap summaries) rows,
        x.1.2 = y.1.2 → x.2 = y.2) ∧
      (∀ x ∈ assignLabels (labelMap summaries) rows,
        x.2 ∈ (["LOW", "MEDIUM", "HIGH"] : List String)) ∧
      (∀ cid : Nat,
        (labelMap summaries).find? (fun p => p.1 == cid) = none →
        lookupLabel (labelMap summaries) cid = "MEDIUM") := by
  intro summaries rows
  have hval : ∀ x ∈ assignLabels (labelMap summaries) rows,
      x.2 = lookupLabel (labelMap summaries) x.1.2 := by
    intro x hx
    rcases List.mem_map.mp hx with ⟨r, _, rfl⟩
    rfl
  refine ⟨?_, ?_, ?_⟩
  · intro x hx y hy hcl
    rw [hval x hx, hval y hy, hcl]
  · intro x hx
    rw [hval x hx]
    exact lookupLabel_mem summaries x.1.2
  · intro cid hf
    unfold lookupLabel
    rw [hf]
    rfl

/-- Witness for C7: two rows of cluster 0 (summary "severe injury",
label HIGH) agree; a row of cluster 1 carries a label in the three-label
set; id 7 is absent from a singleton label map and defaults to
MEDIUM. -/
theorem cluster_label_inherited_witness :
    ((((0, 0), "HIGH") : (Nat × Nat) × String).2
        = (((1, 0), "HIGH") : (Nat × Nat) × String).2) ∧
    ((((2, 1), "LOW") : (Nat × Nat) × String).2
        ∈ (["LOW", "MEDIUM", "HIGH"] : List String)) ∧
    lookupLabel (labelMap [(0, "severe injury".data)]) 7 = "MEDIUM" :=
  ⟨(cluster_label_inherited
      [(0, "severe injury".data), (1, "minor fall".data)]
      [(0, 0), (1, 0), (2, 1)]).1 _ (by decide) _ (by decide) rfl,
   (cluster_label_inherited
      [(0, "severe injury".data), (1, "minor fall".data)]
      [(0, 0), (1, 0), (2, 1)]).2.1 _ (by decide),
   (cluster_label_inherited [(0, "severe injury".data)] []).2.2 7 (by rfl)⟩

/-- C9: with the gradient-boosting library unavailable, the classifier
stage is skipped with the reported status line while every earlier
artifact — summaries, label map, labelled rows, train and test sets —
is identical to what a run with the library would produce. -/
theorem lightgbm_missing_skips_training :
    ∀ (outcome : Nat → LLMOutcome) (clusters : List Nat)
      (rows : List (Nat × Nat)),
      ((run_pipeline false outcome clusters rows).map
          (fun o => (o.summaries, o.label_map, o.labeled, o.trainSet, o.testSet))
        = (run_pipeline true outcome clusters rows).map
          (fun o => (o.summaries, o.label_map, o.labeled, o.trainSet, o.testSet))) ∧
      (∀ out, run_pipeline false outcome clusters rows = .ok out →
        out.classifierTrained = false ∧ skipMsg ∈ out.statusLog) ∧
      (∀ out, run_pipeline true outcome clusters rows = .ok out →
        out.classifierTrained = true) := by
  intro outcome clusters rows
  cases hsp : train_test_split
      (labeledRows (labelMap (summarizeAll outcome clusters)) rows) with
  | error e =>
    refine ⟨?_, ?_, ?_⟩
    · unfold run_pipeline
      rw [hsp]
    · intro out hout
      unfold run_pipeline at hout
      rw [hsp] at hout
      exact Except.noConfusion hout
    · intro out hout
      unfold run_pipeline at hout
      rw [hsp] at hout
      exact Except.noConfusion hout
  | ok p =>
    obtain ⟨tr, te⟩ := p
    refine ⟨?_, ?_, ?_⟩
    · unfold run_pipeline
      rw [hsp]
      rfl
    · intro out hout
      unfold run_pipeline at hout
      rw [hsp] at hout
      injection hout with h
      subst h
      exact ⟨rfl, by simp⟩
    · intro out hout
      unfold run_pipeline at hout
      rw [hsp] at hout
      injection hout with h
      subst h
      rfl

/-- Witness for C9: a concrete two-row, one-cluster run without
LightGBM completes with the split artifacts and the skip status. -/
theorem lightgbm_missing_skips_training_witness :
    ∃ out, run_pipeline false (fun _ => .success "stable condition".data)
        [0] [(0, 0), (1, 0)] = .ok out ∧
      out.classifierTrained = false ∧ skipMsg ∈ out.statusLog := by
  have h : run_pipeline false (fun _ => .success "stable condition".data)
      [0] [(0, 0), (1, 0)]
      = .ok { summaries := [(0, "stable condition".data)]
              label_map := [(0, "MEDIUM")]
              labeled := [((0, 0), "MEDIUM"), ((1, 0), "MEDIUM")]
              trainSet := [(1, "MEDIUM")]
              testSet := [(0, "MEDIUM")]
              classifierTrained := false
              statusLog := [skipMsg] } := by rfl
  exact ⟨_, h,
    (lightgbm_missing_skips_training
      (fun _ => .success "stable condition".data) [0] [(0, 0), (1, 0)]).2.1 _ h⟩

/-- Witness for C3 (amended) at concrete ages: applies the threshold
conjuncts to ages 5, 15, 30 and 70. -/
theorem preprocess_age_buckets_witness :
    preprocess_age (.num 5) = "child" ∧
    preprocess_age (.num 15) = "teen" ∧
    preprocess_age (.num 30) = "adult" ∧
    preprocess_age (.num 70) = "elderly" :=
  ⟨preprocess_age_buckets.2.2.1 5 (by norm_num) (by norm_num),
   preprocess_age_buckets.2.2.2.1 15 (by norm_num) (by norm_num),
   preprocess_age_buckets.2.2.2.2.1 30 (by norm_num) (by norm_num),
   preprocess_age_buckets.2.2.2.2.2.1 70 (by norm_num)⟩

end RiskScore
